import Mathlib

/-!
Verification of the incremental processing / state-tracking engine of the
RSNA Anonymizer MCP wrapper (`anonymizer_mcp.state.ProcessingState` and
`anonymizer_mcp.service.AnonymizerService.anonymize_now`).

The filesystem is modelled as a partial map from path strings to
last-modified times in nanoseconds (`none` = the file is missing, so a
`stat` call raises `FileNotFoundError`).  The external anonymize operation
(`AnonymizerController.anonymize_file`) returns `(error_msg, _)`; we model
it as a function from the path to `Option String` (the error message, or
`none` for no error).  The JSON state file on disk is modelled at the level
of parsed Python values: `Raw.json j` stands for text whose `json.loads`
result is the Python value denoted by `j`, and `Raw.invalid s` for text on
which `json.loads` raises.
-/

namespace AnonymizerMCP

/-- Parsed Python values as produced by `json.loads`.  An `obj` carries the
entries of the resulting Python `dict`; since `json.loads` collapses
duplicate keys while building the dict, the entry lists of objects coming
from a real parse have pairwise distinct keys. -/
inductive Json where
  | null : Json
  | bool : Bool → Json
  | int : Int → Json
  | float : Json
  | str : String → Json
  | arr : List Json → Json
  | obj : List (String × Json) → Json
deriving Repr, BEq

/-- Content of the state file on disk: `invalid s` is text that `json.loads`
rejects (carrying the raw text), `json j` is text that parses to `j`. -/
inductive Raw where
  | invalid : String → Raw
  | json : Json → Raw
deriving Repr, BEq

/-- The state file location on disk: `none` when no file exists at the
state path, `some r` when a file with content `r` does. -/
def Disk : Type := Option Raw

/-- Filesystem view used for `Path.stat()`: maps a path to its current
`st_mtime_ns`, or `none` when the file is missing (stat raises
`FileNotFoundError`). -/
def FS : Type := String → Option Int

/-- The external anonymize operation: `anonymize_file(path)` returns
`(error_msg, _)`; we keep the error channel, `none` meaning no error. -/
def Anon : Type := String → Option String

/-- Python truthiness of the `error_msg` value tested by
`if error_msg:` in `anonymize_now`: `None` and the empty string are falsy,
a non-empty string is truthy. -/
def truthy : Option String → Bool
  | none => false
  | some s => !(s == "")

/-- Python `isinstance(v, int)` on a `json.loads` value, combined with
`int(v)`: a JSON integer is kept as is, and a JSON boolean is also kept
(in Python, `bool` is a subclass of `int`, so `isinstance(True, int)` holds
and `int(True) == 1`); every other value fails the `isinstance` filter. -/
def jsonAsPyInt : Json → Option Int
  | Json.int n => some n
  | Json.bool b => some (if b then 1 else 0)
  | _ => none

/-- `anonymizer_mcp.state.ProcessingState`: the persisted-state dataclass.
`processed` models the Python dict `processed: dict[str, int]` as an
insertion-ordered association list; `dirty` is the `_dirty` flag. -/
structure ProcessingState where
  path : String
  processed : List (String × Int)
  dirty : Bool
deriving Repr, BEq

/-- In-place update of one entry of a Python dict rendered as an
association list: the entry whose key is `k` gets the new value `v` (its
position is kept), every other entry is unchanged. -/
def replaceEntry (k : String) (v : Int) (kv : String × Int) : String × Int :=
  if kv.1 == k then (k, v) else kv

/-- Python dict assignment `d[k] = v`: if the key is present its value is
updated in place (keeping its position), otherwise the entry is appended. -/
def dictInsert (l : List (String × Int)) (k : String) (v : Int) :
    List (String × Int) :=
  if l.any (fun kv => kv.1 == k) then
    l.map (replaceEntry k v)
  else
    l ++ [(k, v)]

/-- The dict comprehension in `ProcessingState.__post_init__`:
`{str(k): int(v) for k, v in payload.get("processed", {}).items()
  if isinstance(v, int)}`.
Keys of a parsed dict are already strings and pairwise distinct, so the
comprehension keeps the integer-valued entries in order. -/
def parseEntries (entries : List (String × Json)) : List (String × Int) :=
  entries.filterMap (fun kv => (jsonAsPyInt kv.2).map (fun n => (kv.1, n)))

/-- `ProcessingState.__post_init__`, applied to a freshly constructed state
(`ProcessingState(path)`, so `processed` starts as the default empty dict):
if the path does not exist, the default is kept; if `json.loads` raises,
the `except Exception` branch resets `processed` to `{}`; if the payload is
a dict, `payload.get("processed", {})` is looked up, and `.items()` on a
non-dict value raises `AttributeError`, again caught to `{}`; if the
payload is not a dict, `processed` keeps its (empty) default. -/
def loadProcessed : Disk → List (String × Int)
  | none => []
  | some (Raw.invalid _) => []
  | some (Raw.json j) =>
    match j with
    | Json.obj kvs =>
      match kvs.lookup "processed" with
      | some (Json.obj entries) => parseEntries entries
      | some _ => []
      | none => []
    | _ => []

/-- Constructing `ProcessingState(path)` over a disk holding `content` at
that path: `__post_init__` restores `processed` best-effort and the
`_dirty` field keeps its `init=False` default `False`. -/
def ProcessingState.load (path : String) (content : Disk) : ProcessingState :=
  { path := path, processed := loadProcessed content, dirty := false }

/-- `ProcessingState.reset`: clear all entries and mark dirty. -/
def ProcessingState.reset (st : ProcessingState) : ProcessingState :=
  { st with processed := [], dirty := true }

/-- `ProcessingState.is_processed`: `False` when the key is absent;
otherwise compare the recorded value with the current `st_mtime_ns`,
treating a `FileNotFoundError` from `stat` as a match (`True`). -/
def ProcessingState.is_processed (st : ProcessingState) (fs : FS)
    (p : String) : Bool :=
  match st.processed.lookup p with
  | none => false
  | some recorded =>
    match fs p with
    | some mtime => recorded == mtime
    | none => true

/-- `ProcessingState.mark_processed`: record the current `st_mtime_ns`
(or the sentinel `0` when `stat` raises `FileNotFoundError`) under the
path, overwriting any prior value, and mark dirty. -/
def ProcessingState.mark_processed (st : ProcessingState) (fs : FS)
    (p : String) : ProcessingState :=
  let mtime_ns : Int :=
    match fs p with
    | some m => m
    | none => 0
  { st with processed := dictInsert st.processed p mtime_ns, dirty := true }

/-- The JSON payload written by `ProcessingState.save`:
`{"processed": self.processed}` serialized as the full snapshot. -/
def snapshotJson (processed : List (String × Int)) : Json :=
  Json.obj [("processed", Json.obj (processed.map (fun kv => (kv.1, Json.int kv.2))))]

/-- `ProcessingState.save` with the write outcome made explicit: a no-op
returning early when not dirty (the disk is not touched at all, even when
a write would fail); otherwise `write_text` either raises — modelled by
`writeFails = true`, in which case the exception propagates and `_dirty`
is left set — or succeeds, replacing the disk content with the full JSON
snapshot and clearing `_dirty`. -/
def ProcessingState.saveWith (st : ProcessingState) (disk : Disk)
    (writeFails : Bool) : Except Unit (ProcessingState × Disk) :=
  if st.dirty then
    if writeFails then
      Except.error ()
    else
      Except.ok ({ st with dirty := false }, some (Raw.json (snapshotJson st.processed)))
  else
    Except.ok (st, disk)

/-- `ProcessingState.save` on the successful-write path, as invoked by
`anonymize_now` and `shutdown`. -/
def ProcessingState.save (st : ProcessingState) (disk : Disk) :
    ProcessingState × Disk :=
  if st.dirty then
    ({ st with dirty := false }, some (Raw.json (snapshotJson st.processed)))
  else
    (st, disk)

/-- Accumulator of the per-candidate loop in `anonymize_now`: the mutable
`self.state` plus the `enqueued` / `completed` / `errors` counters. -/
structure LoopAcc where
  st : ProcessingState
  enqueued : Nat
  completed : Nat
  errors : Nat
deriving Repr, BEq

/-- One iteration of the `for path in candidates` loop in `anonymize_now`:
skip when not forcing and the state says processed; otherwise enqueue and
classify the outcome of `controller.anonymize_file(path)` by the Python
truthiness of its error message, marking the state only on success. -/
def stepCandidate (force : Bool) (fs : FS) (anon : Anon) (acc : LoopAcc)
    (p : String) : LoopAcc :=
  if !force && acc.st.is_processed fs p then
    acc
  else if truthy (anon p) then
    { acc with enqueued := acc.enqueued + 1, errors := acc.errors + 1 }
  else
    { st := acc.st.mark_processed fs p, enqueued := acc.enqueued + 1,
      completed := acc.completed + 1, errors := acc.errors }

/-- The sequential candidate loop of `anonymize_now`. -/
def runLoop (force : Bool) (fs : FS) (anon : Anon) :
    List String → LoopAcc → LoopAcc
  | [], acc => acc
  | p :: rest, acc => runLoop force fs anon rest (stepCandidate force fs anon acc p)

/-- Truncation of the candidate list by the configured concurrency cap:
`if self.config.limits.max_concurrent_files:` is a Python truthiness test,
so `None` and `0` leave the list untouched, and a positive cap keeps the
first `n` candidates in scan order. -/
def truncateCandidates (cap : Option Nat) (cands : List String) : List String :=
  match cap with
  | none => cands
  | some n => if n == 0 then cands else cands.take n

/-- Counters of the dict returned by `anonymize_now` (`quarantined` is a
snapshot count of an external directory and `duration_ms` is wall-clock
time; both are outside the state-tracking engine and not modelled). -/
structure RunCounters where
  files_seen : Nat
  enqueued : Nat
  completed : Nat
  errors : Nat
deriving Repr, BEq

/-- `AnonymizerService.anonymize_now`: optionally reset the store, collect
and truncate the candidates, run the sequential loop, save the store, and
report the counters.  `cands` is the list produced by
`_collect_candidates()` (directory enumeration is external state);
`fs` is the filesystem view used by the `stat` calls of the run. -/
def anonymize_now (force : Bool) (fs : FS) (anon : Anon) (cap : Option Nat)
    (st0 : ProcessingState) (disk : Disk) (cands : List String) :
    RunCounters × ProcessingState × Disk :=
  let st1 := if force then st0.reset else st0
  let candidates := truncateCandidates cap cands
  let res := runLoop force fs anon candidates ⟨st1, 0, 0, 0⟩
  let saved := res.st.save disk
  (⟨candidates.length, res.enqueued, res.completed, res.errors⟩, saved.1, saved.2)

/-! ### Association-list (Python dict) lemmas -/

theorem replaceEntry_pos (k : String) (v : Int) (kv : String × Int)
    (hk : (kv.1 == k) = true) : replaceEntry k v kv = (k, v) := by
  simp [replaceEntry, hk]

theorem replaceEntry_neg (k : String) (v : Int) (kv : String × Int)
    (hk : (kv.1 == k) = false) : replaceEntry k v kv = kv := by
  simp [replaceEntry, hk]

theorem lookup_map_keep (l : List (String × Int)) (k q : String) (v : Int)
    (h : q ≠ k) :
    (l.map (replaceEntry k v)).lookup q = l.lookup q := by
  induction l with
  | nil => rfl
  | cons kv t ih =>
    rw [List.map_cons]
    cases hk : (kv.1 == k) with
    | true =>
      rw [replaceEntry_pos k v kv hk]
      have hk' : kv.1 = k := by simpa using hk
      have hq : (q == k) = false := by simpa using h
      have hqv : (q == kv.1) = false := by simp [hk', h]
      simp [List.lookup, hq, hqv, ih]
    | false =>
      rw [replaceEntry_neg k v kv hk]
      cases hqk : (q == kv.1) with
      | true => simp [List.lookup, hqk]
      | false => simp [List.lookup, hqk, ih]

theorem lookup_append_right_none (l : List (String × Int)) (k : String) (v : Int)
    (h : l.lookup k = none) :
    (l ++ [(k, v)]).lookup k = some v := by
  induction l with
  | nil => simp [List.lookup]
  | cons kv t ih =>
    cases hqk : (k == kv.1) with
    | true => simp [List.lookup, hqk] at h
    | false =>
      simp only [List.lookup, hqk] at h
      simp only [List.cons_append, List.lookup, hqk]
      exact ih h

theorem any_eq_false_lookup_none (l : List (String × Int)) (k : String)
    (h : l.any (fun kv => kv.1 == k) = false) :
    l.lookup k = none := by
  induction l with
  | nil => rfl
  | cons kv t ih =>
    simp only [List.any_cons, Bool.or_eq_false_iff] at h
    have hq : (k == kv.1) = false := by
      have h1 : kv.1 ≠ k := by simpa using h.1
      simp only [beq_eq_false_iff_ne]
      exact fun e => h1 e.symm
    simp [List.lookup, hq, ih h.2]

theorem lookup_map_replace_self (l : List (String × Int)) (k : String) (v : Int)
    (hmem : l.any (fun kv => kv.1 == k) = true) :
    (l.map (replaceEntry k v)).lookup k = some v := by
  induction l with
  | nil => simp at hmem
  | cons kv t ih =>
    rw [List.map_cons]
    cases hk : (kv.1 == k) with
    | true =>
      rw [replaceEntry_pos k v kv hk]
      simp [List.lookup]
    | false =>
      rw [replaceEntry_neg k v kv hk]
      have ht : t.any (fun kv => kv.1 == k) = true := by
        simpa [List.any_cons, hk] using hmem
      have hq : (k == kv.1) = false := by
        have h1 : kv.1 ≠ k := by simpa using hk
        simp only [beq_eq_false_iff_ne]
        exact fun e => h1 e.symm
      simp [List.lookup, hq, ih ht]

theorem lookup_dictInsert_self (l : List (String × Int)) (k : String) (v : Int) :
    (dictInsert l k v).lookup k = some v := by
  unfold dictInsert
  cases hmem : l.any (fun kv => kv.1 == k) with
  | true =>
    rw [if_pos rfl]
    exact lookup_map_replace_self l k v hmem
  | false =>
    rw [if_neg (by simp)]
    exact lookup_append_right_none l k v (any_eq_false_lookup_none l k hmem)

theorem lookup_dictInsert_ne (l : List (String × Int)) (k q : String) (v : Int)
    (h : q ≠ k) :
    (dictInsert l k v).lookup q = l.lookup q := by
  unfold dictInsert
  cases hmem : l.any (fun kv => kv.1 == k) with
  | true =>
    rw [if_pos rfl]
    exact lookup_map_keep l k q v h
  | false =>
    rw [if_neg (by simp)]
    have hq : (q == k) = false := by simpa using h
    induction l with
    | nil => simp [List.lookup, hq]
    | cons kv t ih =>
      simp only [List.any_cons, Bool.or_eq_false_iff] at hmem
      cases hqk : (q == kv.1) with
      | true => simp [List.lookup, hqk]
      | false => simp [List.lookup, hqk, ih hmem.2]

/-! ### State-operation lemmas -/

theorem is_processed_mark_self (st : ProcessingState) (fs : FS) (p : String) :
    (st.mark_processed fs p).is_processed fs p = true := by
  unfold ProcessingState.mark_processed ProcessingState.is_processed
  simp only [lookup_dictInsert_self]
  cases h : fs p with
  | none => simp [h]
  | some m => simp [h]

theorem lookup_mark_ne (st : ProcessingState) (fs : FS) (p q : String)
    (h : q ≠ p) :
    (st.mark_processed fs p).processed.lookup q = st.processed.lookup q := by
  unfold ProcessingState.mark_processed
  exact lookup_dictInsert_ne _ _ _ _ h

theorem is_processed_mark_keep (st : ProcessingState) (fs : FS) (p q : String)
    (h : st.is_processed fs q = true) :
    (st.mark_processed fs p).is_processed fs q = true := by
  by_cases hpq : q = p
  · subst hpq; exact is_processed_mark_self st fs q
  · unfold ProcessingState.is_processed at h ⊢
    rw [lookup_mark_ne st fs p q hpq]
    exact h

theorem lookup_mark_none (st : ProcessingState) (fs : FS) (p q : String)
    (hpq : p ≠ q) (h : st.processed.lookup q = none) :
    (st.mark_processed fs p).processed.lookup q = none := by
  rw [lookup_mark_ne st fs p q (fun e => hpq e.symm)]
  exact h

theorem save_fst_processed (st : ProcessingState) (disk : Disk) :
    ((st.save disk).1).processed = st.processed := by
  unfold ProcessingState.save
  split <;> rfl

theorem is_processed_save (st : ProcessingState) (disk : Disk) (fs : FS)
    (p : String) :
    ((st.save disk).1).is_processed fs p = st.is_processed fs p := by
  unfold ProcessingState.is_processed
  rw [save_fst_processed]

/-! ### Snapshot round-trip lemmas -/

theorem parseEntries_snapshot (l : List (String × Int)) :
    parseEntries (l.map (fun kv => (kv.1, Json.int kv.2))) = l := by
  induction l with
  | nil => rfl
  | cons kv t ih =>
    have hstep : parseEntries ((kv :: t).map (fun kv => (kv.1, Json.int kv.2)))
        = kv :: parseEntries (t.map (fun kv => (kv.1, Json.int kv.2))) := rfl
    rw [hstep, ih]

theorem loadProcessed_snapshot (l : List (String × Int)) :
    loadProcessed (some (Raw.json (snapshotJson l))) = l := by
  simp [loadProcessed, snapshotJson, List.lookup, parseEntries_snapshot]

/-! ### Run-loop lemmas -/

theorem runLoop_accounting (force : Bool) (fs : FS) (anon : Anon)
    (l : List String) (acc : LoopAcc)
    (h : acc.completed + acc.errors = acc.enqueued) :
    (runLoop force fs anon l acc).completed + (runLoop force fs anon l acc).errors
      = (runLoop force fs anon l acc).enqueued := by
  induction l generalizing acc with
  | nil => exact h
  | cons p rest ih =>
    simp only [runLoop]
    apply ih
    unfold stepCandidate
    split
    · exact h
    · split <;> dsimp only <;> omega

theorem runLoop_enqueued_le (force : Bool) (fs : FS) (anon : Anon)
    (l : List String) (acc : LoopAcc) :
    (runLoop force fs anon l acc).enqueued ≤ acc.enqueued + l.length := by
  induction l generalizing acc with
  | nil => simp [runLoop]
  | cons p rest ih =>
    simp only [runLoop]
    refine le_trans (ih _) ?_
    unfold stepCandidate
    split
    · simp only [List.length_cons]
      omega
    · split <;> dsimp only <;> simp only [List.length_cons] <;> omega

/-! ### C1 -/

/-- C1: for every invocation of `anonymize_now`, the returned counters
satisfy `completed + errors = enqueued` (each enqueued file resolves to
exactly one of the two outcomes) and `enqueued ≤ files_seen`. -/
theorem C1_anonymize_now_accounting (force : Bool) (fs : FS) (anon : Anon)
    (cap : Option Nat) (st : ProcessingState) (disk : Disk)
    (cands : List String) :
    (anonymize_now force fs anon cap st disk cands).1.completed
        + (anonymize_now force fs anon cap st disk cands).1.errors
      = (anonymize_now force fs anon cap st disk cands).1.enqueued
    ∧ (anonymize_now force fs anon cap st disk cands).1.enqueued
      ≤ (anonymize_now force fs anon cap st disk cands).1.files_seen := by
  unfold anonymize_now
  refine ⟨runLoop_accounting _ _ _ _ _ rfl, ?_⟩
  simpa using runLoop_enqueued_le force fs anon
    (truncateCandidates cap cands) ⟨if force then st.reset else st, 0, 0, 0⟩

/-! ### Step-equation lemmas -/

theorem stepCandidate_skip (fs : FS) (anon : Anon) (acc : LoopAcc) (p : String)
    (h : acc.st.is_processed fs p = true) :
    stepCandidate false fs anon acc p = acc := by
  unfold stepCandidate
  rw [if_pos (by simp [h])]

theorem stepCandidate_fail (force : Bool) (fs : FS) (anon : Anon)
    (acc : LoopAcc) (p : String)
    (hskip : (!force && acc.st.is_processed fs p) = false)
    (herr : truthy (anon p) = true) :
    stepCandidate force fs anon acc p
      = { acc with enqueued := acc.enqueued + 1, errors := acc.errors + 1 } := by
  unfold stepCandidate
  rw [if_neg (by simp [hskip]), if_pos herr]

theorem stepCandidate_succ (force : Bool) (fs : FS) (anon : Anon)
    (acc : LoopAcc) (p : String)
    (hskip : (!force && acc.st.is_processed fs p) = false)
    (hok : truthy (anon p) = false) :
    stepCandidate force fs anon acc p
      = { st := acc.st.mark_processed fs p, enqueued := acc.enqueued + 1,
          completed := acc.completed + 1, errors := acc.errors } := by
  unfold stepCandidate
  rw [if_neg (by simp [hskip]), if_neg (by simp [hok])]

theorem stepCandidate_keep_is_processed (force : Bool) (fs : FS) (anon : Anon)
    (acc : LoopAcc) (p q : String) (h : acc.st.is_processed fs q = true) :
    (stepCandidate force fs anon acc p).st.is_processed fs q = true := by
  unfold stepCandidate
  split
  · exact h
  · split
    · exact h
    · exact is_processed_mark_keep acc.st fs p q h

theorem stepCandidate_errors_mono (force : Bool) (fs : FS) (anon : Anon)
    (acc : LoopAcc) (p : String) :
    acc.errors ≤ (stepCandidate force fs anon acc p).errors := by
  unfold stepCandidate
  split
  · exact le_refl _
  · split
    · exact Nat.le_succ _
    · exact le_refl _

theorem stepCandidate_lookup_none (force : Bool) (fs : FS) (anon : Anon)
    (acc : LoopAcc) (p f : String) (hf : truthy (anon f) = true)
    (h : acc.st.processed.lookup f = none) :
    (stepCandidate force fs anon acc p).st.processed.lookup f = none := by
  unfold stepCandidate
  split
  · exact h
  · split
    · exact h
    · next hfail =>
      refine lookup_mark_none acc.st fs p f ?_ h
      intro hpf
      rw [hpf] at hfail
      simp [hf] at hfail

/-! ### Run-loop preservation lemmas -/

theorem runLoop_keep_is_processed (force : Bool) (fs : FS) (anon : Anon)
    (q : String) :
    ∀ l : List String, ∀ acc : LoopAcc, acc.st.is_processed fs q = true →
      (runLoop force fs anon l acc).st.is_processed fs q = true := by
  intro l
  induction l with
  | nil => intro acc h; exact h
  | cons p rest ih =>
    intro acc h
    exact ih _ (stepCandidate_keep_is_processed force fs anon acc p q h)

theorem runLoop_errors_mono (force : Bool) (fs : FS) (anon : Anon) :
    ∀ l : List String, ∀ acc : LoopAcc,
      acc.errors ≤ (runLoop force fs anon l acc).errors := by
  intro l
  induction l with
  | nil => intro acc; exact le_refl _
  | cons p rest ih =>
    intro acc
    exact le_trans (stepCandidate_errors_mono force fs anon acc p) (ih _)

theorem runLoop_lookup_none (force : Bool) (fs : FS) (anon : Anon) (f : String)
    (hf : truthy (anon f) = true) :
    ∀ l : List String, ∀ acc : LoopAcc, acc.st.processed.lookup f = none →
      (runLoop force fs anon l acc).st.processed.lookup f = none := by
  intro l
  induction l with
  | nil => intro acc h; exact h
  | cons p rest ih =>
    intro acc h
    exact ih _ (stepCandidate_lookup_none force fs anon acc p f hf h)

theorem runLoop_hits_error (force : Bool) (fs : FS) (anon : Anon) (f : String)
    (hf : truthy (anon f) = true) :
    ∀ l : List String, ∀ acc : LoopAcc, f ∈ l →
      acc.st.processed.lookup f = none →
      acc.errors + 1 ≤ (runLoop force fs anon l acc).errors := by
  intro l
  induction l with
  | nil => intro acc hmem _; cases hmem
  | cons p rest ih =>
    intro acc hmem h
    by_cases hpf : p = f
    · subst hpf
      have hnp : acc.st.is_processed fs p = false := by
        unfold ProcessingState.is_processed
        rw [h]
      have hstep := stepCandidate_fail force fs anon acc p (by simp [hnp]) hf
      rw [runLoop, hstep]
      exact runLoop_errors_mono force fs anon rest { acc with enqueued := acc.enqueued + 1, errors := acc.errors + 1 }
    · have hmem' : f ∈ rest := by
        rcases List.mem_cons.mp hmem with e | e
        · exact absurd e.symm hpf
        · exact e
      have h' := stepCandidate_lookup_none force fs anon acc p f hf h
      calc acc.errors + 1
          ≤ (stepCandidate force fs anon acc p).errors + 1 := by
            have := stepCandidate_errors_mono force fs anon acc p
            omega
        _ ≤ _ := ih (stepCandidate force fs anon acc p) hmem' h'

theorem runLoop_no_errors_all_processed (fs : FS) (anon : Anon) :
    ∀ l : List String, ∀ acc : LoopAcc,
      (runLoop false fs anon l acc).errors = acc.errors →
      ∀ p ∈ l, (runLoop false fs anon l acc).st.is_processed fs p = true := by
  intro l
  induction l with
  | nil => intro acc _ p hmem; cases hmem
  | cons q rest ih =>
    intro acc h p hmem
    by_cases hskip : acc.st.is_processed fs q = true
    · have hstep := stepCandidate_skip fs anon acc q hskip
      rw [runLoop, hstep] at h ⊢
      rcases List.mem_cons.mp hmem with e | e
      · subst e
        exact runLoop_keep_is_processed false fs anon p rest acc hskip
      · exact ih acc h p e
    · have hnp : acc.st.is_processed fs q = false := by
        cases hb : acc.st.is_processed fs q with
        | true => exact absurd hb hskip
        | false => rfl
      by_cases hfail : truthy (anon q) = true
      · exfalso
        have hstep := stepCandidate_fail false fs anon acc q (by simp [hnp]) hfail
        rw [runLoop, hstep] at h
        have hmono : acc.errors + 1 ≤ (runLoop false fs anon rest { acc with enqueued := acc.enqueued + 1, errors := acc.errors + 1 }).errors := runLoop_errors_mono false fs anon rest { acc with enqueued := acc.enqueued + 1, errors := acc.errors + 1 }
        omega
      · have hok : truthy (anon q) = false := by
          cases hb : truthy (anon q) with
          | true => exact absurd hb hfail
          | false => rfl
        have hstep := stepCandidate_succ false fs anon acc q (by simp [hnp]) hok
        rw [runLoop, hstep] at h ⊢
        rcases List.mem_cons.mp hmem with e | e
        · subst e
          exact runLoop_keep_is_processed false fs anon p rest _
            (is_processed_mark_self acc.st fs p)
        · exact ih _ h p e

theorem runLoop_all_processed_id (fs : FS) (anon : Anon) :
    ∀ l : List String, ∀ acc : LoopAcc,
      (∀ p ∈ l, acc.st.is_processed fs p = true) →
      runLoop false fs anon l acc = acc := by
  intro l
  induction l with
  | nil => intro acc _; rfl
  | cons q rest ih =>
    intro acc h
    rw [runLoop, stepCandidate_skip fs anon acc q (h q (List.mem_cons_self q rest))]
    exact ih acc (fun p hp => h p (List.mem_cons_of_mem q hp))

theorem runLoop_force_enqueued (fs : FS) (anon : Anon) :
    ∀ l : List String, ∀ acc : LoopAcc,
      (runLoop true fs anon l acc).enqueued = acc.enqueued + l.length := by
  intro l
  induction l with
  | nil => intro acc; simp [runLoop]
  | cons p rest ih =>
    intro acc
    rw [runLoop]
    by_cases hfail : truthy (anon p) = true
    · rw [stepCandidate_fail true fs anon acc p (by simp) hfail, ih]
      simp [List.length_cons]
      omega
    · have hok : truthy (anon p) = false := by
        cases hb : truthy (anon p) with
        | true => exact absurd hb hfail
        | false => rfl
      rw [stepCandidate_succ true fs anon acc p (by simp) hok, ih]
      simp [List.length_cons]
      omega

/-! ### C3 -/

/-- C3: for every file `f`, calling `mark_processed(f)` then `save()` on a
`ProcessingState`, then constructing a fresh `ProcessingState` from the
same state-file path, yields `is_processed(f) = true`; the modification
time being unchanged between mark and check is expressed by using the same
filesystem view `fs` for both. -/
theorem C3_persistence_round_trip (fs : FS) (st : ProcessingState)
    (disk : Disk) (f : String) :
    (ProcessingState.load st.path
        ((st.mark_processed fs f).save disk).2).is_processed fs f = true := by
  have hdirty : (st.mark_processed fs f).dirty = true := rfl
  unfold ProcessingState.save
  rw [if_pos hdirty]
  unfold ProcessingState.load ProcessingState.is_processed
  dsimp only
  rw [loadProcessed_snapshot]
  unfold ProcessingState.mark_processed
  dsimp only
  rw [lookup_dictInsert_self]
  cases h : fs f with
  | none => simp [h]
  | some m => simp [h]

/-! ### C4 -/

/-- C4: `is_processed(f)` is `true` iff the recorded fingerprint equals
`f`'s current `st_mtime_ns`, except that a file missing at check time is
reported as processed; a previously-processed file whose modification
time changed is eligible again, while `mark_processed` records the
sentinel `0` for a file missing at mark time. -/
theorem C4_fingerprint_match (fs : FS) (st : ProcessingState) (f : String) :
    (st.processed.lookup f = none → st.is_processed fs f = false)
    ∧ (∀ r : Int, st.processed.lookup f = some r →
        (st.is_processed fs f = true ↔ (fs f = none ∨ fs f = some r)))
    ∧ (fs f = none → (st.mark_processed fs f).processed.lookup f = some 0)
    ∧ (∀ fs2 : FS, ∀ m1 m2 : Int, fs f = some m1 → fs2 f = some m2 →
        m1 ≠ m2 → (st.mark_processed fs f).is_processed fs2 f = false) := by
  refine ⟨?_, ?_, ?_, ?_⟩
  · intro h
    unfold ProcessingState.is_processed
    rw [h]
  · intro r h
    unfold ProcessingState.is_processed
    rw [h]
    cases hf : fs f with
    | none => simp
    | some m =>
      constructor
      · intro e
        have hrm : r = m := by simpa using e
        exact Or.inr (congrArg some hrm.symm)
      · intro e
        rcases e with e | e
        · exact absurd e (by simp)
        · have hmr : m = r := by simpa using e
          simp [hmr]
  · intro h
    unfold ProcessingState.mark_processed
    dsimp only
    rw [h, lookup_dictInsert_self]
  · intro fs2 m1 m2 h1 h2 hne
    unfold ProcessingState.mark_processed ProcessingState.is_processed
    dsimp only
    rw [h1, lookup_dictInsert_self, h2]
    simpa using hne

/-- Witness for C4: an absent entry is not processed; a recorded entry
with unchanged mtime is processed; marking a missing file records the
sentinel 0; a changed mtime makes the file eligible again. -/
theorem C4_fingerprint_witness :
    (ProcessingState.is_processed ⟨"s", [], false⟩ (fun _ => some 5) "a" = false)
    ∧ (ProcessingState.is_processed ⟨"s", [("a", 5)], false⟩ (fun _ => some 5) "a" = true)
    ∧ ((ProcessingState.mark_processed ⟨"s", [], false⟩ (fun _ => none) "a").processed.lookup "a" = some 0)
    ∧ ((ProcessingState.mark_processed ⟨"s", [], false⟩ (fun _ => some 1) "a").is_processed (fun _ => some 2) "a" = false) :=
  ⟨(C4_fingerprint_match (fun _ => some 5) ⟨"s", [], false⟩ "a").1 rfl,
   ((C4_fingerprint_match (fun _ => some 5) ⟨"s", [("a", 5)], false⟩ "a").2.1 5
     (by decide)).mpr (Or.inr rfl),
   (C4_fingerprint_match (fun _ => none) ⟨"s", [], false⟩ "a").2.2.1 rfl,
   (C4_fingerprint_match (fun _ => some 1) ⟨"s", [], false⟩ "a").2.2.2
     (fun _ => some 2) 1 2 rfl rfl (by decide)⟩

/-! ### C2 -/

/-- First run of the C2 scenario: one candidate file `"a"` present with
mtime 5, the anonymize operation always failing with `"boom"`. -/
def C2run1 : RunCounters × ProcessingState × Disk :=
  anonymize_now false (fun _ => some 5) (fun _ => some "boom") none
    ⟨"s", [], false⟩ none ["a"]

/-- Second run of the C2 scenario, from the state and disk the first run
left behind, with no filesystem change in between. -/
def C2run2 : RunCounters × ProcessingState × Disk :=
  anonymize_now false (fun _ => some 5) (fun _ => some "boom") none
    C2run1.2.1 C2run1.2.2 ["a"]

/-- C2 as stated is false: when the anonymize operation fails on a file,
the file is not marked processed, so the second of two back-to-back runs
re-enqueues it and reports `errors = 1`, not all-zero counters. -/
theorem C2_counterexample :
    ¬ (C2run2.1.completed = 0 ∧ C2run2.1.errors = 0 ∧ C2run2.1.enqueued = 0) := by
  decide

/-- C2 (amended): running `anonymize_now` with `force_rescan = false` twice
in a row with no filesystem changes between the calls yields
`completed = 0`, `errors = 0` and `enqueued = 0` on the second call,
provided the first call reported `errors = 0` (a file whose anonymization
failed is deliberately left eligible, so it is re-enqueued otherwise). -/
theorem C2_idempotence_when_no_errors (fs : FS) (anon : Anon)
    (cap : Option Nat) (st : ProcessingState) (disk : Disk)
    (cands : List String)
    (h : (anonymize_now false fs anon cap st disk cands).1.errors = 0) :
    (anonymize_now false fs anon cap
        (anonymize_now false fs anon cap st disk cands).2.1
        (anonymize_now false fs anon cap st disk cands).2.2 cands).1.completed = 0
    ∧ (anonymize_now false fs anon cap
        (anonymize_now false fs anon cap st disk cands).2.1
        (anonymize_now false fs anon cap st disk cands).2.2 cands).1.errors = 0
    ∧ (anonymize_now false fs anon cap
        (anonymize_now false fs anon cap st disk cands).2.1
        (anonymize_now false fs anon cap st disk cands).2.2 cands).1.enqueued = 0 := by
  have h1 : (runLoop false fs anon (truncateCandidates cap cands)
      ⟨st, 0, 0, 0⟩).errors = 0 := h
  have hall := runLoop_no_errors_all_processed fs anon
    (truncateCandidates cap cands) ⟨st, 0, 0, 0⟩ h1
  have hall2 : ∀ p ∈ truncateCandidates cap cands,
      (((runLoop false fs anon (truncateCandidates cap cands)
        ⟨st, 0, 0, 0⟩).st.save disk).1).is_processed fs p = true := by
    intro p hp
    rw [is_processed_save]
    exact hall p hp
  have hid := runLoop_all_processed_id fs anon (truncateCandidates cap cands)
    ⟨((runLoop false fs anon (truncateCandidates cap cands)
      ⟨st, 0, 0, 0⟩).st.save disk).1, 0, 0, 0⟩ hall2
  refine ⟨?_, ?_, ?_⟩
  · show (runLoop false fs anon (truncateCandidates cap cands)
      ⟨((runLoop false fs anon (truncateCandidates cap cands)
        ⟨st, 0, 0, 0⟩).st.save disk).1, 0, 0, 0⟩).completed = 0
    rw [hid]
  · show (runLoop false fs anon (truncateCandidates cap cands)
      ⟨((runLoop false fs anon (truncateCandidates cap cands)
        ⟨st, 0, 0, 0⟩).st.save disk).1, 0, 0, 0⟩).errors = 0
    rw [hid]
  · show (runLoop false fs anon (truncateCandidates cap cands)
      ⟨((runLoop false fs anon (truncateCandidates cap cands)
        ⟨st, 0, 0, 0⟩).st.save disk).1, 0, 0, 0⟩).enqueued = 0
    rw [hid]

/-- Witness for C2 (amended): a run over one file that anonymizes
successfully reports no errors, and the immediately following run
enqueues nothing. -/
theorem C2_idempotence_witness :
    (anonymize_now false (fun _ => some 5) (fun _ => none) none
        ⟨"s", [], false⟩ none ["a"]).1.errors = 0
    ∧ (anonymize_now false (fun _ => some 5) (fun _ => none) none
        (anonymize_now false (fun _ => some 5) (fun _ => none) none
          ⟨"s", [], false⟩ none ["a"]).2.1
        (anonymize_now false (fun _ => some 5) (fun _ => none) none
          ⟨"s", [], false⟩ none ["a"]).2.2 ["a"]).1.enqueued = 0 :=
  ⟨by decide,
    (C2_idempotence_when_no_errors (fun _ => some 5) (fun _ => none) none
      ⟨"s", [], false⟩ none ["a"] (by decide)).2.2⟩

/-! ### C5 -/

/-- C5: with `force_rescan = true`, the store is reset before any
candidate is examined — the run's outcome does not depend on the entries
the store held before the call — and every (post-truncation) candidate is
enqueued, previously-processed files included. -/
theorem C5_force_rescan_clears (fs : FS) (anon : Anon) (cap : Option Nat)
    (st : ProcessingState) (disk : Disk) (cands : List String) :
    anonymize_now true fs anon cap st disk cands
      = anonymize_now true fs anon cap st.reset disk cands
    ∧ (anonymize_now true fs anon cap st disk cands).1.enqueued
      = (anonymize_now true fs anon cap st disk cands).1.files_seen := by
  constructor
  · rfl
  · show (runLoop true fs anon (truncateCandidates cap cands)
        ⟨st.reset, 0, 0, 0⟩).enqueued = (truncateCandidates cap cands).length
    rw [runLoop_force_enqueued]
    exact Nat.zero_add _

/-! ### C6 -/

/-- The C6 scenario exercising the stated claim at an empty error string:
one candidate `"a"` present with mtime 5, the anonymize operation
returning the non-`None` error message `""`. -/
def C6run : RunCounters × ProcessingState × Disk :=
  anonymize_now false (fun _ => some 5) (fun _ => some "") none
    ⟨"s", [], false⟩ none ["a"]

/-- C6 as stated is false: `anonymize_now` tests the error message with
Python truthiness (`if error_msg:`), so a returned empty string — which is
non-`None` — is counted as a success: `errors` stays 0 and the file is
marked processed. -/
theorem C6_counterexample :
    ¬ (1 ≤ C6run.1.errors ∧ C6run.2.1.processed.lookup "a" = none
        ∧ C6run.2.1.is_processed (fun _ => some 5) "a" = false) := by
  decide

/-- C6 (amended): for every candidate file whose anonymize operation
returns a non-`None`, non-empty (i.e. Python-truthy) error message, the
run increments `errors` and leaves that file's store entry untouched, so a
file that was never successfully processed still reports
`is_processed(f) = false` after the run and remains eligible for retry. -/
theorem C6_failure_retains_eligibility (force : Bool) (fs : FS) (anon : Anon)
    (cap : Option Nat) (st : ProcessingState) (disk : Disk)
    (cands : List String) (f err : String)
    (h1 : anon f = some err) (h2 : err ≠ "")
    (h3 : st.processed.lookup f = none)
    (h4 : f ∈ truncateCandidates cap cands) :
    1 ≤ (anonymize_now force fs anon cap st disk cands).1.errors
    ∧ (anonymize_now force fs anon cap st disk cands).2.1.processed.lookup f
        = none
    ∧ (anonymize_now force fs anon cap st disk cands).2.1.is_processed fs f
        = false := by
  have hf : truthy (anon f) = true := by
    rw [h1]
    unfold truthy
    simp [h2]
  have h3' : (if force then st.reset else st).processed.lookup f = none := by
    cases force
    · simpa using h3
    · rfl
  have herr := runLoop_hits_error force fs anon f hf
    (truncateCandidates cap cands)
    ⟨if force then st.reset else st, 0, 0, 0⟩ h4 h3'
  have hnone := runLoop_lookup_none force fs anon f hf
    (truncateCandidates cap cands)
    ⟨if force then st.reset else st, 0, 0, 0⟩ h3'
  refine ⟨?_, ?_, ?_⟩
  · show 1 ≤ (runLoop force fs anon (truncateCandidates cap cands)
      ⟨if force then st.reset else st, 0, 0, 0⟩).errors
    simpa using herr
  · show (((runLoop force fs anon (truncateCandidates cap cands)
      ⟨if force then st.reset else st, 0, 0, 0⟩).st.save disk).1).processed.lookup f = none
    rw [save_fst_processed]
    exact hnone
  · show (((runLoop force fs anon (truncateCandidates cap cands)
      ⟨if force then st.reset else st, 0, 0, 0⟩).st.save disk).1).is_processed fs f = false
    rw [is_processed_save]
    unfold ProcessingState.is_processed
    rw [hnone]

/-- Witness for C6 (amended): a non-empty error message on the only
candidate is counted in `errors` and the file stays unprocessed. -/
theorem C6_failure_witness :
    1 ≤ (anonymize_now false (fun _ => some 5) (fun _ => some "boom") none
        ⟨"s", [], false⟩ none ["a"]).1.errors
    ∧ (anonymize_now false (fun _ => some 5) (fun _ => some "boom") none
        ⟨"s", [], false⟩ none ["a"]).2.1.is_processed (fun _ => some 5) "a"
        = false :=
  ⟨(C6_failure_retains_eligibility false (fun _ => some 5)
      (fun _ => some "boom") none ⟨"s", [], false⟩ none ["a"] "a" "boom"
      rfl (by decide) rfl (by decide)).1,
    (C6_failure_retains_eligibility false (fun _ => some 5)
      (fun _ => some "boom") none ⟨"s", [], false⟩ none ["a"] "a" "boom"
      rfl (by decide) rfl (by decide)).2.2⟩

/-! ### C7 -/

theorem lookup_cons_ne_json (k q : String) (v : Json)
    (kvs : List (String × Json)) (h : q ≠ k) :
    ((k, v) :: kvs).lookup q = kvs.lookup q := by
  have hq : (q == k) = false := by simpa using h
  simp [List.lookup, hq]

/-- C7: loading a `ProcessingState` from a state file with malformed
content never raises (the load function is total): unparseable content
yields an empty record, an entry whose value is not an integer is dropped
without affecting the other entries, and an unknown top-level key is
ignored. -/
theorem C7_load_corruption_tolerance :
    (∀ path s, (ProcessingState.load path (some (Raw.invalid s))).processed = [])
    ∧ (∀ path : String, ∀ pre post : List (String × Json), ∀ k : String,
        ∀ v : Json, jsonAsPyInt v = none →
        ProcessingState.load path (some (Raw.json (Json.obj
            [("processed", Json.obj (pre ++ (k, v) :: post))])))
          = ProcessingState.load path (some (Raw.json (Json.obj
            [("processed", Json.obj (pre ++ post))]))))
    ∧ (∀ path k : String, ∀ v : Json, ∀ kvs : List (String × Json),
        k ≠ "processed" →
        ProcessingState.load path (some (Raw.json (Json.obj ((k, v) :: kvs))))
          = ProcessingState.load path (some (Raw.json (Json.obj kvs)))) := by
  refine ⟨fun path s => rfl, ?_, ?_⟩
  · intro path pre post k v hv
    simp [ProcessingState.load, loadProcessed, List.lookup, parseEntries,
      List.filterMap_append, List.filterMap_cons, hv]
  · intro path k v kvs hk
    unfold ProcessingState.load loadProcessed
    dsimp only
    rw [lookup_cons_ne_json k "processed" v kvs (fun e => hk e.symm)]

/-- Witness for C7: invalid JSON loads as empty; a string-valued entry is
dropped while the integer-valued one survives; a `"version"` top-level key
is ignored. -/
theorem C7_load_witness :
    (ProcessingState.load "p" (some (Raw.invalid "not json"))).processed = []
    ∧ ProcessingState.load "p" (some (Raw.json (Json.obj
        [("processed", Json.obj ([] ++ ("a", Json.str "x") :: [("b", Json.int 3)]))])))
      = ProcessingState.load "p" (some (Raw.json (Json.obj
        [("processed", Json.obj ([] ++ [("b", Json.int 3)]))])))
    ∧ ProcessingState.load "p" (some (Raw.json (Json.obj
        (("version", Json.int 2) :: [("processed", Json.obj [("b", Json.int 3)])]))))
      = ProcessingState.load "p" (some (Raw.json (Json.obj
        [("processed", Json.obj [("b", Json.int 3)])]))) :=
  ⟨C7_load_corruption_tolerance.1 "p" "not json",
   C7_load_corruption_tolerance.2.1 "p" [] [("b", Json.int 3)] "a"
     (Json.str "x") rfl,
   C7_load_corruption_tolerance.2.2 "p" "version" (Json.int 2)
     [("processed", Json.obj [("b", Json.int 3)])] (by decide)⟩

/-! ### C8 -/

/-- C8: `save()` is a no-op when the dirty flag is clear — the disk is not
touched even if a write would have failed; when dirty, a successful write
stores the full JSON snapshot `\x7b"processed": ...\x7d` (a function of the
in-memory record alone, never an increment of the prior disk content) and
clears the dirty flag, while a failing write propagates the exception;
the infallible `save` used by `anonymize_now` is the successful-write
path. -/
theorem C8_save_contract (st : ProcessingState) (disk : Disk)
    (writeFails : Bool) :
    (st.dirty = false → st.saveWith disk writeFails = Except.ok (st, disk))
    ∧ (st.dirty = true → st.saveWith disk false
        = Except.ok ({ st with dirty := false },
            some (Raw.json (snapshotJson st.processed))))
    ∧ (st.dirty = true → st.saveWith disk true = Except.error ())
    ∧ st.saveWith disk false = Except.ok (st.save disk) := by
  refine ⟨?_, ?_, ?_, ?_⟩
  · intro h
    unfold ProcessingState.saveWith
    rw [if_neg (by simp [h])]
  · intro h
    unfold ProcessingState.saveWith
    rw [if_pos h, if_neg (by simp)]
  · intro h
    unfold ProcessingState.saveWith
    rw [if_pos h, if_pos rfl]
  · unfold ProcessingState.saveWith ProcessingState.save
    cases h : st.dirty <;> simp

/-- Witness for C8: on a clean state even a failing write is a no-op; on a
dirty state a successful write stores the snapshot and a failing write
surfaces the error. -/
theorem C8_save_witness :
    ProcessingState.saveWith ⟨"s", [("a", 5)], false⟩ none true
      = Except.ok (⟨"s", [("a", 5)], false⟩, none)
    ∧ ProcessingState.saveWith ⟨"s", [("a", 5)], true⟩ none false
      = Except.ok (⟨"s", [("a", 5)], false⟩,
          some (Raw.json (snapshotJson [("a", 5)])))
    ∧ ProcessingState.saveWith ⟨"s", [("a", 5)], true⟩ none true
      = Except.error () :=
  ⟨(C8_save_contract ⟨"s", [("a", 5)], false⟩ none true).1 rfl,
   (C8_save_contract ⟨"s", [("a", 5)], true⟩ none false).2.1 rfl,
   (C8_save_contract ⟨"s", [("a", 5)], true⟩ none true).2.2.1 rfl⟩

/-! ### C9 -/

/-- C9: with a positive `max_concurrent_files` cap `n`, the run behaves
exactly as if only the first `n` candidates in scan order existed, and
`files_seen` reports the post-truncation count `min n cands.length` — so
the number of files discovered in the directory can exceed
`files_seen`. -/
theorem C9_concurrency_cap (force : Bool) (fs : FS) (anon : Anon)
    (st : ProcessingState) (disk : Disk) (cands : List String) (n : Nat)
    (h : 0 < n) :
    (anonymize_now force fs anon (some n) st disk cands).1.files_seen
      = min n cands.length
    ∧ anonymize_now force fs anon (some n) st disk cands
      = anonymize_now force fs anon (some n) st disk (cands.take n) := by
  have hne : (n == 0) = false := by
    simp [Nat.pos_iff_ne_zero.mp h]
  have htr : truncateCandidates (some n) cands = cands.take n := by
    unfold truncateCandidates
    dsimp only
    rw [if_neg (by simp [hne])]
  have htr2 : truncateCandidates (some n) (cands.take n) = cands.take n := by
    unfold truncateCandidates
    dsimp only
    rw [if_neg (by simp [hne]), List.take_take]
    simp
  constructor
  · show (truncateCandidates (some n) cands).length = min n cands.length
    rw [htr, List.length_take]
  · simp only [anonymize_now, htr, htr2]

/-- Witness for C9: 10 candidates with a cap of 3 report
`files_seen = 3`. -/
theorem C9_cap_witness :
    (anonymize_now false (fun _ => none) (fun _ => none) (some 3)
        ⟨"s", [], false⟩ none
        ["f1", "f2", "f3", "f4", "f5", "f6", "f7", "f8", "f9", "f10"]).1.files_seen
      = 3 := by
  have h := (C9_concurrency_cap false (fun _ => none) (fun _ => none)
    ⟨"s", [], false⟩ none
    ["f1", "f2", "f3", "f4", "f5", "f6", "f7", "f8", "f9", "f10"] 3
    (by decide)).1
  simpa using h

/-! ### C10 -/

/-- C10: loading never sets the dirty flag, even when the on-disk content
was corrupt and discarded, so a `save()` right after a load — with no
intervening `mark_processed` or `reset` — leaves the backing file
unchanged (it returns before any write is attempted, so this holds even
when a write would fail), and a corrupt state file persists on disk until
some mutation occurs. -/
theorem C10_load_clean_save_frame (path : String) (content : Disk) :
    (ProcessingState.load path content).dirty = false
    ∧ (ProcessingState.load path content).save content
        = (ProcessingState.load path content, content)
    ∧ (ProcessingState.load path content).saveWith content true
        = Except.ok (ProcessingState.load path content, content) := by
  refine ⟨rfl, ?_, ?_⟩
  · unfold ProcessingState.save
    rw [if_neg (by simp [ProcessingState.load])]
  · unfold ProcessingState.saveWith
    rw [if_neg (by simp [ProcessingState.load])]

end AnonymizerMCP
